import Mathlib

/-!
Verification of the `MonacoCodeTool` editor.js block adapter (`src/index.ts`).

The development shallowly embeds the adapter's serializable data record
(`MonacoEditorData`), its live widget handles (`CodeEditor` / `DiffEditor`
with their optional text models), and its operations (`render`, the diff
toggle's `onActivate` callback, `save`, `renderSettings`) as pure Lean
functions over an explicit `ToolState`.  JavaScript string falsiness
(`s || t`) is modelled by `jsOr`; a `string | null` field is an
`Option String` and its truthiness is `truthy`.  The asynchronous
`loader.init().then(...)` callbacks are modelled as separate events
(`Event.renderComplete`, `Event.toggleDiff`) whose bodies run atomically,
matching the single-threaded, run-to-completion JavaScript semantics.
-/

namespace EditorJsMonaco

/-- JavaScript string-falsiness defaulting: the value of `s || t` when `s`
is a string, since the only falsy string is the empty string. -/
def jsOr (s t : String) : String := if s = "" then t else s

/-- Truthiness of a `string | null` value: `null` and `""` are falsy. -/
def truthy : Option String → Bool
  | none => false
  | some v => v ≠ ""

/-- Monaco themes accepted by the constructor (`'vs' | 'vs-dark' | 'hc-black'`). -/
inductive MonacoTheme where
  | vs
  | vsDark
  | hcBlack
deriving DecidableEq

/-- The serializable block record (interface `MonacoEditorData` in the source).
`diff : string | null` and `languages?: string[] | null` become `Option`s. -/
structure MonacoEditorData where
  code : String
  diff : Option String
  language : String
  wordwrap : Bool
  minimap : Bool
  linenumbers : Bool
  stretched : Bool
  theme : MonacoTheme
  languages : Option (List String)
deriving DecidableEq

/-- A monaco text model: the buffer value plus the language it was created
with (`monaco.editor.createModel(value, language)`). -/
structure TextModel where
  value : String
  language : String
deriving DecidableEq

/-- A live single-buffer editor (`IStandaloneCodeEditor`).  `getModel()` may
return `null`, hence the `Option`. -/
structure CodeEditor where
  model : Option TextModel
deriving DecidableEq

/-- `editor.getValue()`: the model's value, or the empty string when no
model is attached. -/
def CodeEditor.getValue (e : CodeEditor) : String :=
  match e.model with
  | some m => m.value
  | none => ""

/-- A live diff editor (`IStandaloneDiffEditor`): the original and modified
sides' models, each possibly absent. -/
structure DiffEditor where
  originalModel : Option TextModel
  modifiedModel : Option TextModel
deriving DecidableEq

/-- The mutable state of one `MonacoCodeTool` instance: the record `data`,
the two mutually-exclusive widget handles `editorCode` / `editorDiff`, the
language ids reported by the widget library, whether the container element
has been created (`render()` ran), and the one-shot focus flag. -/
structure ToolState where
  data : MonacoEditorData
  editorCode : Option CodeEditor
  editorDiff : Option DiffEditor
  languages : List String
  container : Bool
  shouldFocus : Bool
deriving DecidableEq

/-- Theme selection in the constructor's `switch (config.theme)`. -/
def themeOf : String → MonacoTheme
  | "vs" => .vs
  | "light" => .vs
  | "hc-black" => .hcBlack
  | _ => .vsDark

/-- The fresh record built by the constructor for a new block
(`Object.values(data).length === 0`). -/
def newData (cfgLanguages : Option (List String)) (cfgTheme : String) : MonacoEditorData :=
  { code := ""
    diff := none
    language := ""
    wordwrap := true
    minimap := false
    linenumbers := true
    stretched := false
    theme := themeOf cfgTheme
    languages := cfgLanguages }

/-- The constructor.  `data = none` models the empty object `{}` handed to a
freshly created block; `some d` models any record with at least one field. -/
def mkTool (data : Option MonacoEditorData) (cfgLanguages : Option (List String))
    (cfgTheme : String) : ToolState :=
  match data with
  | none =>
    { data := newData cfgLanguages cfgTheme
      editorCode := none
      editorDiff := none
      languages := []
      container := false
      shouldFocus := true }
  | some d =>
    { data := d
      editorCode := none
      editorDiff := none
      languages := []
      container := false
      shouldFocus := false }

/-- The placeholder value used when seeding an editor from empty code. -/
def placeholderText : String := "// type your code..."

/-- Synchronous part of `render()`: the container element is created and
stored; everything else happens in the `loader.init().then` callback. -/
def renderSync (s : ToolState) : ToolState := { s with container := true }

/-- Widget creation inside `render()`'s callback: `if (!this.data.diff)`
creates a single editor seeded with `this.data.code || placeholder` and
`this.data.language || "plaintext"`, else a diff editor whose original model
is seeded the same way and whose modified model is `this.data.diff || ""`. -/
def renderCreate (s : ToolState) : ToolState :=
  if truthy s.data.diff then
    { s with editorDiff := some (DiffEditor.mk
        (some (TextModel.mk (jsOr s.data.code placeholderText)
          (jsOr s.data.language "plaintext")))
        (some (TextModel.mk (jsOr (s.data.diff.getD "") "")
          (jsOr s.data.language "plaintext")))) }
  else
    { s with editorCode := some (CodeEditor.mk
        (some (TextModel.mk (jsOr s.data.code placeholderText)
          (jsOr s.data.language "plaintext")))) }

/-- Number of focus requests issued by the tail of `render()`'s callback:
`if (this.shouldFocus) { this.editorCode?.focus(); this.editorDiff?.focus(); ... }`. -/
def renderFocusCount (s : ToolState) : Nat :=
  if s.shouldFocus then
    (if s.editorCode.isSome then 1 else 0) + (if s.editorDiff.isSome then 1 else 0)
  else 0

/-- The whole `loader.init().then` callback of `render()`: create the widget,
store the library-reported language ids, and clear the one-shot focus flag. -/
def renderComplete (monacoLangs : List String) (s : ToolState) : ToolState :=
  let s1 := renderCreate s
  let s2 := { s1 with languages := monacoLangs }
  if s2.shouldFocus then { s2 with shouldFocus := false } else s2

/-- Synchronous part of the diff toggle's `onActivate`: its entire body is
inside `loader.init().then(...)`, so activation itself changes nothing. -/
def toggleDiffActivate (s : ToolState) : ToolState := s

/-- The value read when switching diff → single:
`this.editorDiff?.getOriginalEditor().getModel()?.getValue() || this.data.code`. -/
def diffOriginalRead (s : ToolState) : String :=
  match s.editorDiff with
  | none => s.data.code
  | some d =>
    match d.originalModel with
    | none => s.data.code
    | some m => jsOr m.value s.data.code

/-- The value read when switching single → diff:
`this.editorCode?.getValue() || this.data.code`. -/
def singleRead (s : ToolState) : String :=
  match s.editorCode with
  | none => s.data.code
  | some e => jsOr e.getValue s.data.code

/-- Intermediate state inside the diff toggle's callback: the record's
`diff` field has been updated and the old widget disposed and nulled, but
the replacement widget has not yet been constructed. -/
def toggleDiffMid (s : ToolState) : ToolState :=
  if s.container then
    if truthy s.data.diff then
      { s with data := { s.data with diff := none }, editorDiff := none }
    else
      { s with data := { s.data with diff := some (singleRead s) }, editorCode := none }
  else s

/-- The whole diff-toggle callback (`onActivate`'s `loader.init().then`):
early-return when the container is absent; otherwise switch modes, reading
the seed value from the live widget with a `|| this.data.code` fallback,
updating `data.diff`, disposing the old widget, and creating the new one. -/
def toggleDiffComplete (s : ToolState) : ToolState :=
  if s.container then
    if truthy s.data.diff then
      { s with
        data := { s.data with diff := none }
        editorDiff := none
        editorCode := some (CodeEditor.mk
          (some (TextModel.mk (diffOriginalRead s)
            (jsOr s.data.language "plaintext")))) }
    else
      { s with
        data := { s.data with diff := some (singleRead s) }
        editorCode := none
        editorDiff := some (DiffEditor.mk
          (some (TextModel.mk (singleRead s)
            (jsOr s.data.language "plaintext")))
          (some (TextModel.mk (singleRead s)
            (jsOr s.data.language "plaintext")))) }
  else s

/-- The `save()` method: with no live widget it returns the record as is;
otherwise it rebuilds `code`/`diff` from the live buffers —
`code = this.editorCode.getValue()` in single mode, and in diff mode
`code = originalModel?.getValue() || ""`, `diff = modifiedModel?.getValue() || ""` —
and copies every preference field from the in-memory record. -/
def save (s : ToolState) : MonacoEditorData :=
  if s.editorCode.isNone && s.editorDiff.isNone then s.data
  else
    let content : String × Option String :=
      match s.editorCode, s.editorDiff with
      | some e, _ => (e.getValue, none)
      | none, some d =>
        ((match d.originalModel with
          | some m => jsOr m.value ""
          | none => ""),
         some (match d.modifiedModel with
          | some m => jsOr m.value ""
          | none => ""))
      | none, none => ("", none)
    { code := content.1
      diff := content.2
      language := jsOr s.data.language ""
      wordwrap := s.data.wordwrap
      minimap := s.data.minimap
      linenumbers := s.data.linenumbers
      stretched := s.data.stretched
      theme := s.data.theme
      languages := s.data.languages }

/-- One settings-surface descriptor (icon and `onActivate` closure elided:
the icon is a constant and the activations are modelled as the separate
state-transition functions above). -/
structure SettingItem where
  label : String
  toggle : String
  isActive : Bool
deriving DecidableEq

/-- The `renderSettings()` descriptor list: the five fixed toggles in source
order, followed by one descriptor per reported language passing the
`this.data.languages?.includes(lang) ?? true` filter.  The diff toggle's
`isActive` is `typeof this.data.diff === 'string'`, i.e. `diff` non-null. -/
def renderSettings (s : ToolState) : List SettingItem :=
  [{ label := "Word wrap", toggle := "wordwrap", isActive := s.data.wordwrap },
   { label := "Line numbers", toggle := "linenumbers", isActive := s.data.linenumbers },
   { label := "Diff", toggle := "diff", isActive := s.data.diff.isSome },
   { label := "Stretch", toggle := "stretch", isActive := s.data.stretched },
   { label := "Minimap", toggle := "minimap", isActive := s.data.minimap }]
  ++ (s.languages.filter fun l =>
        match s.data.languages with
        | none => true
        | some ls => ls.contains l).map
      fun l => { label := l, toggle := "language", isActive := s.data.language == l }

/-- Accessor: the live single editor's buffer value, when a single editor
with an attached model exists. -/
def singleValue (s : ToolState) : Option String :=
  s.editorCode.bind fun e => e.model.map fun m => m.value

/-- Observable operations on one block, in the order their effects run on
the single JavaScript thread.  `renderComplete` and `toggleDiff` stand for
the respective `loader.init().then` callbacks running to completion;
`renderComplete` carries the language ids the widget library reports. -/
inductive Event where
  | renderSync
  | renderComplete (monacoLangs : List String)
  | toggleDiff
  | saveOp
deriving DecidableEq

/-- Effect of one event on the block state.  `save()` performs only reads. -/
def stepState (s : ToolState) : Event → ToolState
  | .renderSync => renderSync s
  | .renderComplete ls => renderComplete ls s
  | .toggleDiff => toggleDiffComplete s
  | .saveOp => s

/-- The observable intermediate states an event passes through, ending with
the event's final state.  For the diff toggle this exposes the point where
the old widget is already disposed but the new one not yet constructed. -/
def microStates (s : ToolState) : Event → List ToolState
  | .renderSync => [renderSync s]
  | .renderComplete ls => [renderCreate s, renderComplete ls s]
  | .toggleDiff => [toggleDiffMid s, toggleDiffComplete s]
  | .saveOp => [s]

/-- Every observable state along a trace of events, starting state included. -/
def traceStates (s : ToolState) : List Event → List ToolState
  | [] => [s]
  | e :: es => s :: (microStates s e ++ traceStates (stepState s e) es)

/-- Final state after a trace of events. -/
def runEvents (s : ToolState) : List Event → ToolState
  | [] => s
  | e :: es => runEvents (stepState s e) es

/-- Trace well-formedness, tracking whether a `renderComplete` has already
happened: a toggle callback can only run after widget-library
initialization has completed for this block (spec §5: toggle callbacks are
reachable only through the settings surface of an initialized block, and
the loader promise resolves callbacks in registration order). -/
def goodFrom : Bool → List Event → Bool
  | _, [] => true
  | _, .renderComplete _ :: es => goodFrom true es
  | seen, .toggleDiff :: es => seen && goodFrom seen es
  | seen, _ :: es => goodFrom seen es

/-- Well-formed traces start with no initialization completed. -/
def goodTrace (es : List Event) : Bool := goodFrom false es

/-- Boolean form of the exclusivity invariant: at most one widget handle is
non-null. -/
def atMostOneB (s : ToolState) : Bool := s.editorCode.isNone || s.editorDiff.isNone

/-- State before the first `renderComplete`: no widget exists yet. -/
def Pre (s : ToolState) : Prop := s.editorCode = none ∧ s.editorDiff = none

/-- Inductive invariant after the first `renderComplete`: the live widget
handle agrees with the truthiness of `data.diff`, the other handle is null,
and the live primary buffer (single buffer, or the diff original) holds a
non-empty value. -/
def Post (s : ToolState) : Prop :=
  (truthy s.data.diff = true →
    s.editorCode = none ∧
    ∃ d m, s.editorDiff = some d ∧ d.originalModel = some m ∧ m.value ≠ "") ∧
  (truthy s.data.diff = false →
    s.editorDiff = none ∧
    ∃ e m, s.editorCode = some e ∧ e.model = some m ∧ m.value ≠ "")

/-- Total count of focus requests issued along a trace. -/
def stepFocus (s : ToolState) : Event → Nat
  | .renderComplete _ => renderFocusCount (renderCreate s)
  | _ => 0

/-- Sum of the focus requests issued by each event of a trace. -/
def totalFocus (s : ToolState) : List Event → Nat
  | [] => 0
  | e :: es => stepFocus s e + totalFocus (stepState s e) es

/-- Whether a trace contains a completed (re)initialization. -/
def hasRenderComplete : List Event → Bool
  | [] => false
  | .renderComplete _ :: _ => true
  | _ :: es => hasRenderComplete es

theorem jsOr_empty_right (x : String) : jsOr x "" = x := by
  unfold jsOr; split <;> simp_all

theorem jsOr_of_ne {x : String} (t : String) (hx : x ≠ "") : jsOr x t = x := by
  unfold jsOr; exact if_neg hx

theorem placeholder_ne_empty : placeholderText ≠ "" := by decide

theorem jsOr_placeholder_ne_empty (x : String) : jsOr x placeholderText ≠ "" := by
  unfold jsOr; split
  · exact placeholder_ne_empty
  · assumption

theorem truthy_some {v : String} : truthy (some v) = true ↔ v ≠ "" := by
  simp [truthy]

theorem truthy_some_false {v : String} : truthy (some v) = false ↔ v = "" := by
  simp [truthy]

theorem pre_atMostOne {s : ToolState} (h : Pre s) : atMostOneB s = true := by
  simp [atMostOneB, h.1]

theorem post_atMostOne {s : ToolState} (h : Post s) : atMostOneB s = true := by
  cases hT : truthy s.data.diff
  · obtain ⟨hd, -⟩ := h.2 hT
    simp [atMostOneB, hd]
  · obtain ⟨hc, -⟩ := h.1 hT
    simp [atMostOneB, hc]

theorem renderSync_pre {s : ToolState} (h : Pre s) : Pre (renderSync s) := h

theorem renderSync_post {s : ToolState} (h : Post s) : Post (renderSync s) := h

theorem renderCreate_post {s : ToolState} (h : Pre s ∨ Post s) : Post (renderCreate s) := by
  unfold renderCreate
  cases hT : truthy s.data.diff with
  | false =>
    simp only [hT, Bool.false_eq_true, if_false]
    refine ⟨fun hAbs => absurd hAbs (by simp [hT]), fun _ => ?_⟩
    have hd : s.editorDiff = none := by
      rcases h with hP | hP
      · exact hP.2
      · exact (hP.2 hT).1
    exact ⟨hd, _, _, rfl, rfl, jsOr_placeholder_ne_empty _⟩
  | true =>
    simp only [hT, if_true]
    refine ⟨fun _ => ?_, fun hAbs => absurd hAbs (by simp [hT])⟩
    have hc : s.editorCode = none := by
      rcases h with hP | hP
      · exact hP.1
      · exact (hP.1 hT).1
    exact ⟨hc, _, _, rfl, rfl, jsOr_placeholder_ne_empty _⟩

theorem renderComplete_fields (ls : List String) (s : ToolState) :
    (renderComplete ls s).data = (renderCreate s).data ∧
    (renderComplete ls s).editorCode = (renderCreate s).editorCode ∧
    (renderComplete ls s).editorDiff = (renderCreate s).editorDiff := by
  refine ⟨?_, ?_, ?_⟩ <;> (unfold renderComplete; dsimp only; split <;> rfl)

theorem post_congr {s t : ToolState} (hd : t.data.diff = s.data.diff)
    (hc : t.editorCode = s.editorCode) (he : t.editorDiff = s.editorDiff)
    (h : Post s) : Post t := by
  unfold Post at h ⊢
  rw [hd, hc, he]
  exact h

theorem renderComplete_post {s : ToolState} (ls : List String) (h : Pre s ∨ Post s) :
    Post (renderComplete ls s) := by
  obtain ⟨h1, h2, h3⟩ := renderComplete_fields ls s
  exact post_congr (by rw [h1]) h2 h3 (renderCreate_post h)

theorem toggle_post {s : ToolState} (h : Post s) : Post (toggleDiffComplete s) := by
  unfold toggleDiffComplete
  by_cases hcont : s.container
  · simp only [hcont, if_true]
    cases hT : truthy s.data.diff with
    | false =>
      obtain ⟨hd, e, m, he, hm, hv⟩ := h.2 hT
      have hread : singleRead s = m.value := by
        simp only [singleRead, he, CodeEditor.getValue, hm]
        exact jsOr_of_ne _ hv
      simp only [hT, Bool.false_eq_true, if_false]
      refine ⟨fun _ => ⟨rfl, _, _, rfl, rfl, ?_⟩, fun hAbs => ?_⟩
      · rw [hread]; exact hv
      · rw [truthy_some_false] at hAbs
        rw [hread] at hAbs
        exact absurd hAbs hv
    | true =>
      obtain ⟨hc, d, m, hd, hm, hv⟩ := h.1 hT
      have hread : diffOriginalRead s = m.value := by
        simp only [diffOriginalRead, hd, hm]
        exact jsOr_of_ne _ hv
      simp only [hT, if_true]
      refine ⟨fun hAbs => absurd hAbs (by simp [truthy]), fun _ => ⟨rfl, _, _, rfl, rfl, ?_⟩⟩
      rw [hread]; exact hv
  · simp only [hcont, if_false]
    exact h

theorem toggleMid_atMostOne {s : ToolState} (h : Post s) : atMostOneB (toggleDiffMid s) = true := by
  unfold toggleDiffMid
  by_cases hcont : s.container
  · simp only [hcont, if_true]
    cases hT : truthy s.data.diff with
    | false =>
      simp [atMostOneB]
    | true =>
      simp [atMostOneB]
  · simp only [hcont, if_false]
    exact post_atMostOne h

theorem inv_traceStates : ∀ (es : List Event) (s : ToolState) (seen : Bool),
    (if seen then Post s else Pre s) → goodFrom seen es = true →
    (traceStates s es).all atMostOneB = true := by
  intro es
  induction es with
  | nil =>
    intro s seen hInv _
    cases seen with
    | false => simpa [traceStates] using pre_atMostOne hInv
    | true => simpa [traceStates] using post_atMostOne hInv
  | cons e es ih =>
    intro s seen hInv hg
    have head : atMostOneB s = true := by
      cases seen with
      | false => exact pre_atMostOne hInv
      | true => exact post_atMostOne hInv
    cases e with
    | renderSync =>
      have hg2 : goodFrom seen es = true := hg
      have hInv2 : if seen then Post (renderSync s) else Pre (renderSync s) := by
        cases seen with
        | false => exact renderSync_pre hInv
        | true => exact renderSync_post hInv
      have hMicro : atMostOneB (renderSync s) = true := by
        cases seen with
        | false => exact pre_atMostOne (renderSync_pre hInv)
        | true => exact post_atMostOne (renderSync_post hInv)
      simpa [traceStates, microStates, stepState, head, hMicro] using ih (renderSync s) seen hInv2 hg2
    | renderComplete ls =>
      have hg2 : goodFrom true es = true := hg
      have hPrePost : Pre s ∨ Post s := by
        cases seen with
        | false => exact Or.inl hInv
        | true => exact Or.inr hInv
      have hPost : Post (renderComplete ls s) := renderComplete_post ls hPrePost
      have hMicro1 : atMostOneB (renderCreate s) = true := post_atMostOne (renderCreate_post hPrePost)
      have hMicro2 : atMostOneB (renderComplete ls s) = true := post_atMostOne hPost
      simpa [traceStates, microStates, stepState, head, hMicro1, hMicro2] using
        ih (renderComplete ls s) true hPost hg2
    | toggleDiff =>
      have hseen : seen = true ∧ goodFrom seen es = true := by
        cases seen with
        | false => simp [goodFrom] at hg
        | true => exact ⟨rfl, hg⟩
      have hPost : Post s := by
        rw [hseen.1] at hInv
        exact hInv
      have hPost2 : Post (toggleDiffComplete s) := toggle_post hPost
      have hMicro1 : atMostOneB (toggleDiffMid s) = true := toggleMid_atMostOne hPost
      have hMicro2 : atMostOneB (toggleDiffComplete s) = true := post_atMostOne hPost2
      have hg2 : goodFrom true es = true := by rw [hseen.1] at hg; exact hg
      have := ih (toggleDiffComplete s) true hPost2 hg2
      rw [hseen.1] at *
      simpa [traceStates, microStates, stepState, head, hMicro1, hMicro2] using this
    | saveOp =>
      have hg2 : goodFrom seen es = true := hg
      simpa [traceStates, microStates, stepState, head] using ih s seen hInv hg2

theorem mkTool_pre (d : Option MonacoEditorData) (cl : Option (List String)) (ct : String) :
    Pre (mkTool d cl ct) := by
  cases d <;> exact ⟨rfl, rfl⟩

theorem stepState_shouldFocus {s : ToolState} (h : s.shouldFocus = false) (e : Event) :
    (stepState s e).shouldFocus = false := by
  cases e with
  | renderSync => exact h
  | renderComplete ls =>
    show (renderComplete ls s).shouldFocus = false
    cases hT : truthy s.data.diff <;>
      simp [renderComplete, renderCreate, hT, h]
  | toggleDiff =>
    show (toggleDiffComplete s).shouldFocus = false
    unfold toggleDiffComplete
    split
    · split <;> exact h
    · exact h
  | saveOp => exact h

theorem totalFocus_zero {s : ToolState} (h : s.shouldFocus = false) :
    ∀ es : List Event, totalFocus s es = 0 := by
  suffices H : ∀ (es : List Event) (s : ToolState), s.shouldFocus = false → totalFocus s es = 0 by
    intro es; exact H es s h
  intro es
  induction es with
  | nil => intro s _; rfl
  | cons e es ih =>
    intro s hs
    have h1 : stepFocus s e = 0 := by
      cases e with
      | renderComplete ls =>
        have hC : (renderCreate s).shouldFocus = s.shouldFocus := by
          unfold renderCreate; split <;> rfl
        simp [stepFocus, renderFocusCount, hC, hs]
      | renderSync => rfl
      | toggleDiff => rfl
      | saveOp => rfl
    simp [totalFocus, h1, ih _ (stepState_shouldFocus hs e)]

theorem focus_main : ∀ (es : List Event) (s : ToolState), Pre s → s.shouldFocus = true →
    goodFrom false es = true →
    totalFocus s es = if hasRenderComplete es then 1 else 0 := by
  intro es
  induction es with
  | nil => intro s _ _ _; rfl
  | cons e es ih =>
    intro s hPre hF hg
    cases e with
    | renderSync =>
      have := ih (renderSync s) (renderSync_pre hPre) hF hg
      simpa [totalFocus, stepFocus, stepState, hasRenderComplete] using this
    | renderComplete ls =>
      have hFirst : stepFocus s (.renderComplete ls) = 1 := by
        cases hT : truthy s.data.diff <;>
          simp [stepFocus, renderFocusCount, renderCreate, hT, hF, hPre.1, hPre.2]
      have hNext : (stepState s (.renderComplete ls)).shouldFocus = false := by
        show (renderComplete ls s).shouldFocus = false
        cases hT : truthy s.data.diff <;>
          simp [renderComplete, renderCreate, hT, hF]
      simp [totalFocus, hFirst, totalFocus_zero hNext, hasRenderComplete]
    | toggleDiff =>
      simp [goodFrom] at hg
    | saveOp =>
      have := ih s hPre hF hg
      simpa [totalFocus, stepFocus, stepState, hasRenderComplete] using this

/-- C1: for every block instance and every well-formed sequence of
operations (renders, diff-toggle callbacks, saves; a toggle callback runs
only after the block's widget-library initialization has completed, which
is the source's single-threaded callback ordering), at most one of
`editorCode` / `editorDiff` is non-null at every observable point — the
mid-transition points of a mode switch included, since each switch disposes
and nulls the old widget before constructing the new one. -/
theorem claim1_exclusive_sessions (d : Option MonacoEditorData)
    (cl : Option (List String)) (ct : String) (es : List Event)
    (hg : goodTrace es = true) :
    (traceStates (mkTool d cl ct) es).all atMostOneB = true :=
  inv_traceStates es (mkTool d cl ct) false (mkTool_pre d cl ct) hg

/-- Witness for C1: a concrete trace rendering a new block, switching
single → diff, saving, and switching back. -/
theorem claim1_exclusive_sessions_witness :
    goodTrace [Event.renderSync, Event.renderComplete ["plaintext", "javascript"],
      Event.toggleDiff, Event.saveOp, Event.toggleDiff] = true ∧
    (traceStates (mkTool none none "vs-dark")
      [Event.renderSync, Event.renderComplete ["plaintext", "javascript"],
       Event.toggleDiff, Event.saveOp, Event.toggleDiff]).all atMostOneB = true :=
  ⟨by decide, claim1_exclusive_sessions none none "vs-dark" _ (by decide)⟩

/-- C9: a block constructed from the empty record `{}` issues exactly one
focus request — at the first completed initialization — and none on any
later re-render; a block constructed from a non-empty record never issues
a focus request. -/
theorem claim9_focus_once (cl : Option (List String)) (ct : String)
    (d : MonacoEditorData) (es : List Event) (hg : goodTrace es = true) :
    totalFocus (mkTool none cl ct) es = (if hasRenderComplete es then 1 else 0) ∧
    totalFocus (mkTool (some d) cl ct) es = 0 :=
  ⟨focus_main es (mkTool none cl ct) (mkTool_pre none cl ct) rfl hg,
   totalFocus_zero rfl es⟩

/-- Witness for C9: a trace with two completed renders focuses once from the
empty record and never from a populated record. -/
theorem claim9_focus_once_witness :
    goodTrace [Event.renderSync, Event.renderComplete ["plaintext"],
      Event.renderComplete ["plaintext"]] = true ∧
    totalFocus (mkTool none none "vs")
      [Event.renderSync, Event.renderComplete ["plaintext"],
       Event.renderComplete ["plaintext"]] =
      (if hasRenderComplete [Event.renderSync, Event.renderComplete ["plaintext"],
        Event.renderComplete ["plaintext"]] then 1 else 0) ∧
    totalFocus (mkTool (some (newData none "vs")) none "vs")
      [Event.renderSync, Event.renderComplete ["plaintext"],
       Event.renderComplete ["plaintext"]] = 0 :=
  ⟨by decide, claim9_focus_once none "vs" (newData none "vs") _ (by decide)⟩

/-- C6: when no live session exists (neither widget handle is set, the
widget library not having finished loading), `save()` returns the
in-memory record unchanged. -/
theorem claim6_save_no_session (s : ToolState) (h1 : s.editorCode = none)
    (h2 : s.editorDiff = none) : save s = s.data := by
  simp [save, h1, h2]

/-- Witness for C6: a freshly constructed block has no live session and
saves to its stored record. -/
theorem claim6_save_no_session_witness :
    (mkTool (some (newData none "vs-dark")) none "vs").editorCode = none ∧
    (mkTool (some (newData none "vs-dark")) none "vs").editorDiff = none ∧
    save (mkTool (some (newData none "vs-dark")) none "vs") =
      (mkTool (some (newData none "vs-dark")) none "vs").data :=
  ⟨rfl, rfl, claim6_save_no_session _ rfl rfl⟩

/-- C10: `save()` performs only reads — a save event leaves the whole
adapter state (record fields, widget handles, settings flags) unchanged, so
consecutive saves return equal records and the settings descriptors are
unaffected. -/
theorem claim10_save_pure (s : ToolState) :
    stepState s .saveOp = s ∧ save (stepState s .saveOp) = save s ∧
    renderSettings (stepState s .saveOp) = renderSettings s :=
  ⟨rfl, rfl, rfl⟩

/-- C5: initializing from a record with `diff = null` and saving before any
edits returns the record with `code` normalized to the placeholder exactly
when it was empty; `language` and every preference field are preserved. -/
theorem claim5_roundtrip (R : MonacoEditorData) (ls : List String)
    (cl : Option (List String)) (ct : String) (h : R.diff = none) :
    save (renderComplete ls (renderSync (mkTool (some R) cl ct))) =
      { R with code := jsOr R.code placeholderText } := by
  cases R with
  | mk code diff language ww mm ln st th lgs =>
    simp only at h
    subst h
    simp [mkTool, renderSync, renderComplete, renderCreate, save, truthy,
      CodeEditor.getValue, jsOr_empty_right]

/-- Witness for C5 at the spec's scenario record. -/
theorem claim5_roundtrip_witness :
    ({ code := "let x=1;", diff := none, language := "javascript",
       wordwrap := true, minimap := false, linenumbers := true,
       stretched := false, theme := .vsDark,
       languages := none } : MonacoEditorData).diff = none ∧
    save (renderComplete ["javascript"] (renderSync (mkTool
      (some { code := "let x=1;", diff := none, language := "javascript",
              wordwrap := true, minimap := false, linenumbers := true,
              stretched := false, theme := .vsDark, languages := none })
      none "vs-dark"))) =
      { ({ code := "let x=1;", diff := none, language := "javascript",
           wordwrap := true, minimap := false, linenumbers := true,
           stretched := false, theme := .vsDark,
           languages := none } : MonacoEditorData) with
        code := jsOr "let x=1;" placeholderText } :=
  ⟨rfl, claim5_roundtrip _ ["javascript"] none "vs-dark" rfl⟩

/-- Record whose `diff` field is the empty string: non-null, yet falsy. -/
def emptyDiffRecord : MonacoEditorData :=
  { code := "let x=1;", diff := some "", language := "javascript",
    wordwrap := true, minimap := false, linenumbers := true,
    stretched := false, theme := .vsDark, languages := none }

/-- C4 as stated is false: a record whose `diff` is the empty string is
non-null, yet `render()` initializes a single-buffer session for it, because
the source branches on `if (!this.data.diff)` and `""` is falsy. -/
theorem claim4_counterexample :
    emptyDiffRecord.diff = some "" ∧
    (renderComplete ["plaintext"] (renderSync (mkTool (some emptyDiffRecord)
      none "vs-dark"))).editorDiff = none ∧
    (renderComplete ["plaintext"] (renderSync (mkTool (some emptyDiffRecord)
      none "vs-dark"))).editorCode.isSome = true := by
  refine ⟨rfl, ?_, ?_⟩ <;> decide

/-- C4 amended: at (re)initialization the mode is determined solely by the
truthiness of `record.diff` — non-null AND non-empty selects a diff session
(original buffer seeded with `record.code`, or the placeholder when that is
empty; modified buffer seeded with `record.diff`; the same
`record.language`-or-plaintext applied to both sides); null or empty selects
a single-buffer session seeded with `record.code` (or the placeholder) and
that same language. -/
theorem claim4_render_mode (R : MonacoEditorData) (ls : List String)
    (cl : Option (List String)) (ct : String) :
    (renderComplete ls (renderSync (mkTool (some R) cl ct))).editorCode =
      (if truthy R.diff then none
       else some (CodeEditor.mk (some (TextModel.mk (jsOr R.code placeholderText)
         (jsOr R.language "plaintext"))))) ∧
    (renderComplete ls (renderSync (mkTool (some R) cl ct))).editorDiff =
      (if truthy R.diff then
        some (DiffEditor.mk
          (some (TextModel.mk (jsOr R.code placeholderText) (jsOr R.language "plaintext")))
          (some (TextModel.mk (R.diff.getD "") (jsOr R.language "plaintext"))))
       else none) := by
  cases hT : truthy R.diff <;>
    simp [mkTool, renderSync, renderComplete, renderCreate, hT, jsOr_empty_right]

/-- Single-mode state whose live buffer was edited down to the empty string
while the record still holds non-empty code. -/
def editedEmptyState : ToolState :=
  { data := { code := "x", diff := none, language := "", wordwrap := true,
              minimap := false, linenumbers := true, stretched := false,
              theme := .vsDark, languages := none }
    editorCode := some (CodeEditor.mk (some (TextModel.mk "" "plaintext")))
    editorDiff := none
    languages := ["plaintext"]
    container := true
    shouldFocus := false }

/-- C2 as stated is false when the live single-buffer content is the empty
string: the `|| this.data.code` fallback fires on the falsy empty string, so
the single → diff → single round trip yields `record.code` instead of the
live content. -/
theorem claim2_counterexample :
    singleValue editedEmptyState = some "" ∧
    editedEmptyState.data.code = "x" ∧
    singleValue (stepState (stepState editedEmptyState .toggleDiff) .toggleDiff) =
      some "x" := by
  refine ⟨rfl, rfl, ?_⟩
  decide

/-- C2 amended: for a single-mode block whose live buffer content `c` is
non-empty, toggling single → diff and then diff → single with no edits in
between restores a single-buffer session with content exactly `c` (and a
null `diff` record field); when `c` is empty the JS `||` fallback
substitutes `record.code` instead. -/
theorem claim2_toggle_roundtrip (s : ToolState) (e : CodeEditor) (m : TextModel)
    (hcont : s.container = true) (hec : s.editorCode = some e) (hm : e.model = some m)
    (hv : m.value ≠ "") (hdiff : truthy s.data.diff = false) :
    singleValue (stepState (stepState s .toggleDiff) .toggleDiff) = some m.value ∧
    (stepState (stepState s .toggleDiff) .toggleDiff).data.diff = none := by
  have hread : singleRead s = m.value := by
    simp only [singleRead, hec, CodeEditor.getValue, hm]
    exact jsOr_of_ne _ hv
  have h1 : stepState s .toggleDiff = toggleDiffComplete s := rfl
  rw [h1]
  unfold toggleDiffComplete
  simp only [hcont, if_true, hdiff, Bool.false_eq_true, if_false, hread]
  have hT2 : truthy (some m.value) = true := truthy_some.mpr hv
  constructor <;>
    simp [stepState, toggleDiffComplete, hT2, diffOriginalRead, singleValue,
      jsOr_of_ne _ hv]

/-- Single-mode state matching the spec's scenario record, with the live
buffer still holding the rendered content. -/
def scenarioSingleState : ToolState :=
  { data := { code := "let x=1;", diff := none, language := "javascript",
              wordwrap := true, minimap := false, linenumbers := true,
              stretched := false, theme := .vsDark, languages := none }
    editorCode := some (CodeEditor.mk (some (TextModel.mk "let x=1;" "javascript")))
    editorDiff := none
    languages := ["javascript"]
    container := true
    shouldFocus := false }

/-- Witness for C2 at the spec's scenario content. -/
theorem claim2_toggle_roundtrip_witness :
    singleValue (stepState (stepState scenarioSingleState .toggleDiff) .toggleDiff) =
      some "let x=1;" ∧
    (stepState (stepState scenarioSingleState .toggleDiff) .toggleDiff).data.diff = none :=
  claim2_toggle_roundtrip scenarioSingleState
    (CodeEditor.mk (some (TextModel.mk "let x=1;" "javascript")))
    (TextModel.mk "let x=1;" "javascript") rfl rfl rfl (by decide) rfl

/-- C3 as stated is false: `record.diff` is updated inside the
`loader.init().then` callback, so a `save()` issued after the toggle action
but before the callback runs still reflects the old mode; only after the
callback does the record carry the seeded modified-buffer content. -/
theorem claim3_counterexample :
    scenarioSingleState.data.diff = none ∧
    (save (toggleDiffActivate scenarioSingleState)).diff = none ∧
    (save (stepState scenarioSingleState .toggleDiff)).diff = some "let x=1;" := by
  refine ⟨rfl, ?_, ?_⟩ <;> decide

/-- C3 amended: the record update is not synchronous with the toggle
action — activation leaves the record (hence `save()`) unchanged — but once
the asynchronous callback runs, `record.diff` is updated together with the
old widget's disposal, before the new widget is constructed: the
mid-transition state already carries the final `diff` value. -/
theorem claim3_record_update (s : ToolState) (hcont : s.container = true) :
    toggleDiffActivate s = s ∧
    save (toggleDiffActivate s) = save s ∧
    (toggleDiffMid s).data.diff = (stepState s .toggleDiff).data.diff := by
  refine ⟨rfl, rfl, ?_⟩
  show (toggleDiffMid s).data.diff = (toggleDiffComplete s).data.diff
  unfold toggleDiffMid toggleDiffComplete
  cases hT : truthy s.data.diff <;> simp [hcont, hT]

/-- Witness for C3 at the scenario state. -/
theorem claim3_record_update_witness :
    toggleDiffActivate scenarioSingleState = scenarioSingleState ∧
    save (toggleDiffActivate scenarioSingleState) = save scenarioSingleState ∧
    (toggleDiffMid scenarioSingleState).data.diff =
      (stepState scenarioSingleState .toggleDiff).data.diff :=
  claim3_record_update scenarioSingleState rfl

/-- Diff-mode state whose two models have been disposed: live reads fail. -/
def disposedDiffState : ToolState :=
  { data := { code := "x", diff := some "y", language := "", wordwrap := true,
              minimap := false, linenumbers := true, stretched := false,
              theme := .vsDark, languages := none }
    editorCode := none
    editorDiff := some (DiffEditor.mk none none)
    languages := []
    container := true
    shouldFocus := false }

/-- C7 as stated is false for `save()`: in diff mode with absent models the
saved `code` and `diff` fall back to the empty string, not to `record.code`
and `record.diff`. -/
theorem claim7_counterexample :
    disposedDiffState.data.code = "x" ∧ disposedDiffState.data.diff = some "y" ∧
    (save disposedDiffState).code = "" ∧ (save disposedDiffState).diff = some "" := by
  refine ⟨rfl, rfl, ?_, ?_⟩ <;> decide

/-- C7 amended: a failed live read never surfaces an error; the diff →
single switch's seed content does fall back to `record.code`, while
`save()` in diff mode falls back to the empty string on both sides. -/
theorem claim7_read_fallbacks (s : ToolState) (d : DiffEditor)
    (hc : s.editorCode = none) (hd : s.editorDiff = some d)
    (ho : d.originalModel = none) (hm : d.modifiedModel = none)
    (hcont : s.container = true) (ht : truthy s.data.diff = true) :
    (save s).code = "" ∧ (save s).diff = some "" ∧
    singleValue (stepState s .toggleDiff) = some s.data.code := by
  refine ⟨?_, ?_, ?_⟩
  · simp [save, hc, hd, ho]
  · simp [save, hc, hd, hm]
  · show singleValue (toggleDiffComplete s) = some s.data.code
    simp [toggleDiffComplete, hcont, ht, diffOriginalRead, hd, ho, singleValue]

/-- Witness for C7 at the disposed-models diff state. -/
theorem claim7_read_fallbacks_witness :
    (save disposedDiffState).code = "" ∧ (save disposedDiffState).diff = some "" ∧
    singleValue (stepState disposedDiffState .toggleDiff) =
      some disposedDiffState.data.code :=
  claim7_read_fallbacks disposedDiffState (DiffEditor.mk none none)
    rfl rfl rfl rfl rfl (by decide)

/-- C8: a language descriptor for id `l` appears on the settings surface
iff `l` is among the library-reported languages and passes the allow-list
filter (`record.languages` null, or containing `l`), and its `isActive`
flag is precisely the equality test against `record.language`. -/
theorem claim8_language_filter (s : ToolState) (l : String) (b : Bool) :
    (SettingItem.mk l "language" b ∈ renderSettings s) ↔
      (l ∈ s.languages ∧
       (s.data.languages = none ∨ ∃ ls, s.data.languages = some ls ∧ l ∈ ls) ∧
       b = (s.data.language == l)) := by
  unfold renderSettings
  cases hL : s.data.languages with
  | none =>
    simp only [List.mem_append, List.mem_cons, List.mem_filter, List.mem_map,
      SettingItem.mk.injEq, hL, List.not_mem_nil]
    constructor
    · rintro (h5 | ⟨a, ⟨ha, -⟩, rfl, -, hb⟩)
      · simp at h5
      · exact ⟨ha, Or.inl trivial, hb.symm⟩
    · rintro ⟨ha, -, hb⟩
      exact Or.inr ⟨l, ⟨ha, trivial⟩, rfl, trivial, hb.symm⟩
  | some ls =>
    simp only [List.mem_append, List.mem_cons, List.mem_filter, List.mem_map,
      SettingItem.mk.injEq, hL, List.not_mem_nil]
    constructor
    · rintro (h5 | ⟨a, ⟨ha, hp⟩, rfl, -, hb⟩)
      · simp at h5
      · exact ⟨ha, Or.inr ⟨ls, rfl, List.elem_iff.mp hp⟩, hb.symm⟩
    · rintro ⟨ha, hls, hb⟩
      have hp : ls.contains l = true := by
        rcases hls with h | ⟨ls2, hls2, hmem⟩
        · exact absurd h (by simp)
        · injection hls2 with h2
          subst h2
          exact List.elem_iff.mpr hmem
      exact Or.inr ⟨l, ⟨ha, hp⟩, rfl, trivial, hb.symm⟩

end EditorJsMonaco
